import Mathlib

/-!
Verification of the `appstore` store client (`store.go`) against its
natural-language specification.

The Go source is shallowly embedded: pure control flow is translated to Lean
functions; collaborators that live outside `store.go` (the `Cert` helpers, the
`jwt` and `x509` libraries, base64 decoding, the HTTP transport and the
`newAppStoreAPIError` envelope matcher) are abstracted as explicit oracle
parameters, so the theorems quantify over every possible behaviour of those
collaborators while the control flow of `store.go` itself is modelled exactly.
-/

namespace AppStore

/-- A Go `[]byte` value, modelled as a list of byte values. -/
abbrev Bytes := List Nat

/-- A Go `error` in the JWS pipeline, modelled by its message string
(`store.go` builds these with `fmt.Errorf` and compares nothing else). -/
abbrev GoErr := String

/-- The dynamic type of a certificate's public key: either an
`*ecdsa.PublicKey` (identified abstractly by a natural number) or some other
key type. Mirrors the `leafCert.PublicKey.(*ecdsa.PublicKey)` type assertion. -/
inductive GoPublicKey where
  | ecdsaKey (k : Nat)
  | otherKey (tag : String)
deriving DecidableEq, Repr

/-- The part of an `x509.Certificate` that `parseJWS` inspects. -/
structure GoCertificate where
  publicKey : GoPublicKey
deriving DecidableEq, Repr

/-- Oracle bundle for the collaborators of `parseJWS` that are defined outside
`store.go`: `Cert.extractCertByIndex`, `x509.ParseCertificate`
(whose error detail `store.go` discards, hence `Except Unit`) and
`Cert.verifyCert`. -/
structure CertEnv where
  extractCertByIndex : String → Nat → Except GoErr Bytes
  parseCertificate : Bytes → Except Unit GoCertificate
  verifyCert : GoCertificate → GoCertificate → GoCertificate → Option GoErr

/-- A `jwt.ParseWithClaims` oracle for claims of type `C`: given the JWS
string and the ecdsa key handed back by the key function, it yields the
in-place update applied to the claims object together with the returned
error. The update and the error depend only on the token and the key, as in
`jwt`, where the prior contents of the claims object are overwritten. -/
abbrev ParseWithClaimsFn (C : Type) := String → Nat → (C → C) × Option GoErr

/-- Error message of `parseJWS` when the root certificate fails X.509 parsing. -/
def rootCertParseErr : GoErr := "appstore failed to parse root certificate"

/-- Error message of `parseJWS` when the intermediate certificate fails X.509 parsing. -/
def intermediateCertParseErr : GoErr := "appstore failed to parse intermediate certificate"

/-- Error message of `parseJWS` when the leaf certificate fails X.509 parsing. -/
def leafCertParseErr : GoErr := "appstore failed to parse leaf certificate"

/-- Error message of `parseJWS` when the leaf public key is not an ecdsa key. -/
def unsupportedKeyTypeErr : GoErr := "appstore public key must be of type ecdsa.PublicKey"

/-- Embedding of `StoreClient.parseJWS` (store.go:432-472): extract and parse
the root (index 2), intermediate (index 1) and leaf (index 0) certificates,
verify the chain, require an ecdsa leaf key, then verify the signature and
decode the claims via `jwt.ParseWithClaims`. Returns the (possibly updated)
claims object together with the returned error, mirroring Go's in-place
mutation of `claims`. -/
def parseJWS {C : Type} (env : CertEnv) (pwc : ParseWithClaimsFn C)
    (jwsEncode : String) (claims : C) : C × Option GoErr :=
  match env.extractCertByIndex jwsEncode 2 with
  | .error e => (claims, some e)
  | .ok rootCertBytes =>
    match env.parseCertificate rootCertBytes with
    | .error _ => (claims, some rootCertParseErr)
    | .ok rootCert =>
      match env.extractCertByIndex jwsEncode 1 with
      | .error e => (claims, some e)
      | .ok intermediaCertBytes =>
        match env.parseCertificate intermediaCertBytes with
        | .error _ => (claims, some intermediateCertParseErr)
        | .ok intermediaCert =>
          match env.extractCertByIndex jwsEncode 0 with
          | .error e => (claims, some e)
          | .ok leafCertBytes =>
            match env.parseCertificate leafCertBytes with
            | .error _ => (claims, some leafCertParseErr)
            | .ok leafCert =>
              match env.verifyCert rootCert intermediaCert leafCert with
              | some e => (claims, some e)
              | none =>
                match leafCert.publicKey with
                | .otherKey _ => (claims, some unsupportedKeyTypeErr)
                | .ecdsaKey pk =>
                  let r := pwc jwsEncode pk
                  (r.1 claims, r.2)

/-- The decoded transaction claims shape (`JWSTransaction`), opaque here: its
field layout is irrelevant to the pipeline claims; `fill` identifies the
contents written into it by `jwt.ParseWithClaims`. -/
structure JWSTransaction where
  fill : String := ""
deriving DecidableEq, Repr

/-- The decoded renewal-info claims shape (`JWSRenewalInfoDecodedPayload`),
opaque for the same reason as `JWSTransaction`. -/
structure JWSRenewalInfoDecodedPayload where
  fill : String := ""
deriving DecidableEq, Repr

/-- The decoded notification claims shape (`NotificationPayload`), opaque for
the same reason as `JWSTransaction`. -/
structure NotificationPayload where
  fill : String := ""
deriving DecidableEq, Repr

/-- Embedding of `StoreClient.ParseSignedTransaction` (store.go:474-481): on
any `parseJWS` error return a nil transaction with that error, otherwise the
populated transaction and a nil error. `none` in the first component is Go's
nil pointer. -/
def ParseSignedTransaction (env : CertEnv) (pwc : ParseWithClaimsFn JWSTransaction)
    (transaction : String) : Option JWSTransaction × Option GoErr :=
  match parseJWS env pwc transaction ({} : JWSTransaction) with
  | (_, some e) => (none, some e)
  | (tran, none) => (some tran, none)

/-- Embedding of `StoreClient.ParseNotificationV2` (store.go:379-383): the
code calls `parseJWS` twice on the same (mutated in place) payload object,
discards the first error, and returns the always-non-nil payload together
with the second call's error. -/
def ParseNotificationV2 (env : CertEnv) (pwc : ParseWithClaimsFn NotificationPayload)
    (tokenStr : String) : NotificationPayload × Option GoErr :=
  let ret : NotificationPayload := {}
  let ret1 := (parseJWS env pwc tokenStr ret).1
  parseJWS env pwc tokenStr ret1

/-- Embedding of `StoreClient.ParseSignedTransactions` (store.go:395-405):
loop over the inputs, keep an element only when `err == nil && trans != nil`,
and always return a nil error. -/
def ParseSignedTransactions (env : CertEnv) (pwc : ParseWithClaimsFn JWSTransaction)
    (transactions : List String) : List JWSTransaction × Option GoErr :=
  let result := transactions.foldl (fun acc v =>
    match ParseSignedTransaction env pwc v with
    | (some t, none) => acc ++ [t]
    | _ => acc) []
  (result, none)

/-- Embedding of Go `strings.Split(s, sep)` for a one-character separator:
splits around every occurrence of `sep`; the empty string yields one empty
field, matching Go. -/
def goSplit (sep : Char) : List Char → List (List Char)
  | [] => [[]]
  | c :: rest =>
    if c = sep then [] :: goSplit sep rest
    else
      match goSplit sep rest with
      | [] => [[c]]
      | h :: t => (c :: h) :: t

/-- Does `s` start with `pat`? Helper for the Go `strings.Contains` embedding. -/
def goStartsWith : List Char → List Char → Bool
  | _, [] => true
  | [], _ :: _ => false
  | c :: s, d :: pat => c = d && goStartsWith s pat

/-- Embedding of Go `strings.Contains(s, pat)`: `pat` occurs as a contiguous
substring of `s` (the empty pattern always matches, as in Go). -/
def goContains : List Char → List Char → Bool
  | s, pat =>
    if goStartsWith s pat then true
    else
      match s with
      | [] => false
      | _ :: rest => goContains rest pat

/-- The result of running a Go function that may panic: either a runtime
panic (such as an out-of-range slice index) or a normal return. -/
inductive GoOutcome (α : Type) where
  | panics (msg : String)
  | returns (a : α)
deriving Repr

/-- Oracle for `base64.RawURLEncoding.DecodeString` applied to the middle JWS
segment; the decoded bytes are kept as the string Go converts them to. -/
structure DecodeEnv where
  b64DecodePayload : String → Except GoErr String

/-- The dynamic result of `ParseJWSEncodeString`: Go returns an
`interface{}` holding either a `*JWSTransaction` or a
`*JWSRenewalInfoDecodedPayload`. -/
inductive JWSDecoded where
  | transaction (t : JWSTransaction)
  | renewalInfo (r : JWSRenewalInfoDecodedPayload)
deriving DecidableEq, Repr

/-- Embedding of `StoreClient.ParseJWSEncodeString` (store.go:408-430): split
the input on `.`, base64-decode segment index 1 (a missing segment is a Go
runtime panic, modelled by `GoOutcome.panics`), then probe the decoded bytes
for the `transactionId` or `renewalDate` substring to choose the decode
target; with no match return a nil result and a nil error. -/
def ParseJWSEncodeString (cenv : CertEnv) (denv : DecodeEnv)
    (pwcT : ParseWithClaimsFn JWSTransaction)
    (pwcR : ParseWithClaimsFn JWSRenewalInfoDecodedPayload)
    (jwsEncode : String) : GoOutcome (Option JWSDecoded × Option GoErr) :=
  let parts := goSplit '.' jwsEncode.data
  match parts[1]? with
  | none => .panics "runtime error: index out of range"
  | some p1 =>
    match denv.b64DecodePayload (String.mk p1) with
    | .error e => .returns (none, some e)
    | .ok payload =>
      if goContains payload.data "transactionId".data then
        let r := parseJWS cenv pwcT jwsEncode ({} : JWSTransaction)
        .returns (some (.transaction r.1), r.2)
      else if goContains payload.data "renewalDate".data then
        let r := parseJWS cenv pwcR jwsEncode ({} : JWSRenewalInfoDecodedPayload)
        .returns (some (.renewalInfo r.1), r.2)
      else
        .returns (none, none)

/-- A transport-level Go error value as seen by `errors.Is`: the sentinels
`io.EOF` and `io.ErrUnexpectedEOF` plus arbitrary other errors. -/
inductive GoIOError where
  | eofErr
  | unexpectedEOFErr
  | otherErr (tag : String)
deriving DecidableEq, Repr

/-- Embedding of `errors.Is(err, target)`: `target` occurs in the error's
unwrap chain; a nil error is the empty chain. -/
def errorsIs (err : List GoIOError) (target : GoIOError) : Bool :=
  err.contains target

/-- Embedding of the anonymous retry predicate installed by
`StoreClient.httpClient` (store.go:103-115): retry on 401
(`http.StatusUnauthorized`), on `io.ErrUnexpectedEOF`, or on `io.EOF`;
otherwise do not retry. -/
def httpClientShouldRetry (i : Nat) (err : List GoIOError) : Bool :=
  if i = 401 then
    true
  else if errorsIs err .unexpectedEOFErr then
    true
  else if errorsIs err .eofErr then
    true
  else
    false

/-- Modelled from the spec: the typed `APIError{code, message}` envelope that
`newAppStoreAPIError` (defined outside `store.go`) extracts from a structured
error body — "surfaced as a typed APIError{code, message}". -/
structure APIError where
  errorCode : Nat
  errorMessage : String
deriving DecidableEq, Repr

/-- The errors `StoreClient.Do` can return, tagged by the stage that built
them (the `fmt.Errorf` wrappers) or carrying the typed `APIError`. -/
inductive DoErr where
  | newRequestErr (msg : String)
  | clientDoErr (msg : String)
  | readBodyErr (msg : String)
  | apiErr (e : APIError)
deriving DecidableEq, Repr

/-- The part of an `*http.Response` that `Do` inspects: status code, headers,
and the outcome of `io.ReadAll` on its body. -/
structure HTTPResponse where
  statusCode : Nat
  headers : List (String × String)
  body : Except String Bytes
deriving Repr

/-- Oracle bundle for the collaborators of `StoreClient.Do`: whether
`http.NewRequest` fails, the outcome of the composed HTTP client's `Do`, and
the `newAppStoreAPIError` envelope matcher (body and headers to an optional
typed error). -/
structure DoEnv where
  newRequest : Option String
  clientDo : Except String HTTPResponse
  newAppStoreAPIError : Bytes → List (String × String) → Option APIError

/-- Embedding of `StoreClient.Do` (store.go:484-508): build the request, run
it through the composed client, read the body, and — when the status is not
200 and the body matches the structured error envelope — return the typed
`APIError`; otherwise return the status, body and the (nil) read error. -/
def Do (env : DoEnv) : Nat × Option Bytes × Option DoErr :=
  match env.newRequest with
  | some msg => (0, none, some (.newRequestErr msg))
  | none =>
    match env.clientDo with
    | .error msg => (0, none, some (.clientDoErr msg))
    | .ok resp =>
      match resp.body with
      | .error msg => (resp.statusCode, none, some (.readBodyErr msg))
      | .ok byteData =>
        if resp.statusCode ≠ 200 then
          match env.newAppStoreAPIError byteData resp.headers with
          | some rErr => (resp.statusCode, some byteData, some (.apiErr rErr))
          | none => (resp.statusCode, some byteData, none)
        else
          (resp.statusCode, some byteData, none)

/-- Modelled from the spec: the fields of the `HistoryResponse` page shape
(defined outside `store.go`) that the pagination loop reads — the `hasMore`
flag and the `revision` continuation token — plus an opaque page identifier
standing for the rest of the payload. -/
structure HistoryResponse where
  hasMore : Bool
  revision : String
  page : Nat
deriving DecidableEq, Repr

/-- Modelled from the spec: the fields of the `RefundLookupResponse` page
shape (defined outside `store.go`) that the pagination loop reads. -/
structure RefundLookupResponse where
  hasMore : Bool
  revision : String
  page : Nat
deriving DecidableEq, Repr

/-- Modelled from the spec: the fields of the `NotificationHistoryResponses`
shape (defined outside `store.go`) that the pagination loop reads — the
`hasMore` flag, the `paginationToken`, and the list of history items
(opaque identifiers). -/
structure NotificationHistoryResponses where
  hasMore : Bool
  paginationToken : String
  notificationHistory : List Nat
deriving DecidableEq, Repr

/-- Result of a pagination loop: the collected pages, a propagated error
(the Go code then returns nil pages), or `hung` when the modelled server
trace runs out while the loop still wants another page. -/
inductive LoopOut (α : Type) where
  | ok (pages : List α)
  | err (e : GoErr)
  | hung
deriving DecidableEq, Repr

/-- Prepend one collected page to a loop result that is still successful. -/
def consPage {α : Type} (r : α) : LoopOut α → LoopOut α
  | .ok pages => .ok (r :: pages)
  | .err e => .err e
  | .hung => .hung

/-- Append a batch of collected items to a loop result that is still
successful. -/
def consPages {α : Type} (rs : List α) : LoopOut α → LoopOut α
  | .ok pages => .ok (rs ++ pages)
  | .err e => .err e
  | .hung => .hung

/-- Embedding of the `StoreClient.GetTransactionHistory` loop
(store.go:131-152). The server is a trace of per-request outcomes; `rev` is
the `revision` entry of the query sent with the next request (`none` when the
caller's query has no revision). Returns the trace of revision parameters
actually sent, paired with the loop's outcome: append each page, stop when
`hasMore` is false, otherwise feed a non-empty `revision` into the next
request and stop (successfully) on an empty one. An error makes the whole
call return nil pages with that error. -/
def GetTransactionHistory (rev : Option String) :
    List (Except GoErr HistoryResponse) → List (Option String) × LoopOut HistoryResponse
  | [] => ([], .hung)
  | .error e :: _ => ([rev], .err e)
  | .ok rsp :: rest =>
    if rsp.hasMore then
      if rsp.revision ≠ "" then
        let next := GetTransactionHistory (some rsp.revision) rest
        (rev :: next.1, consPage rsp next.2)
      else ([rev], .ok [rsp])
    else ([rev], .ok [rsp])

/-- Embedding of the `StoreClient.GetRefundHistory` loop (store.go:214-237),
structured exactly like `GetTransactionHistory`: the trace records the
`revision` query appended to the URL of each request (`none` for the first,
bare-URL request). -/
def GetRefundHistory (rev : Option String) :
    List (Except GoErr RefundLookupResponse) → List (Option String) × LoopOut RefundLookupResponse
  | [] => ([], .hung)
  | .error e :: _ => ([rev], .err e)
  | .ok rsp :: rest =>
    if rsp.hasMore then
      if rsp.revision ≠ "" then
        let next := GetRefundHistory (some rsp.revision) rest
        (rev :: next.1, consPage rsp next.2)
      else ([rev], .ok [rsp])
    else ([rev], .ok [rsp])

/-- Embedding of the `StoreClient.GetNotificationHistory` loop
(store.go:329-356): per response, append its `notificationHistory` items to
the accumulated result; stop when `hasMore` is false, feed a non-empty
`paginationToken` into the next request's URL, and stop (successfully) on an
empty one. -/
def GetNotificationHistory (tok : Option String) :
    List (Except GoErr NotificationHistoryResponses) → List (Option String) × LoopOut Nat
  | [] => ([], .hung)
  | .error e :: _ => ([tok], .err e)
  | .ok rsp :: rest =>
    if rsp.hasMore then
      if rsp.paginationToken ≠ "" then
        let next := GetNotificationHistory (some rsp.paginationToken) rest
        (tok :: next.1, consPages rsp.notificationHistory next.2)
      else ([tok], .ok rsp.notificationHistory)
    else ([tok], .ok rsp.notificationHistory)

/-- A `CertEnv` whose certificate extraction always fails, exercising the
first pipeline stage's error path. -/
def certEnvExtractFail : CertEnv where
  extractCertByIndex := fun _ _ => .error "bad jws"
  parseCertificate := fun _ => .error ()
  verifyCert := fun _ _ _ => none

/-- A `CertEnv` for which every pipeline stage succeeds and the leaf key is
an ecdsa key; extraction returns the requested index as a one-byte blob so
the three positions stay distinguishable. -/
def certEnvOk : CertEnv where
  extractCertByIndex := fun _ i => .ok [i]
  parseCertificate := fun _ => .ok ⟨.ecdsaKey 7⟩
  verifyCert := fun _ _ _ => none

/-- A `CertEnv` in which only the root certificate (extracted as `[2]`) fails
X.509 parsing. -/
def certEnvRootBad : CertEnv where
  extractCertByIndex := fun _ i => .ok [i]
  parseCertificate := fun b => if b = [2] then .error () else .ok ⟨.ecdsaKey 7⟩
  verifyCert := fun _ _ _ => none

/-- A `CertEnv` whose chain verifies but whose leaf certificate (extracted as
`[0]`) carries a non-ecdsa public key. -/
def certEnvRSAKey : CertEnv where
  extractCertByIndex := fun _ i => .ok [i]
  parseCertificate := fun b => if b = [0] then .ok ⟨.otherKey "rsa"⟩ else .ok ⟨.ecdsaKey 7⟩
  verifyCert := fun _ _ _ => none

/-- A trivially succeeding `jwt.ParseWithClaims` oracle for transactions. -/
def pwcIdT : ParseWithClaimsFn JWSTransaction := fun _ _ => (id, none)

/-- A trivially succeeding `jwt.ParseWithClaims` oracle for notifications. -/
def pwcIdN : ParseWithClaimsFn NotificationPayload := fun _ _ => (id, none)

/-- A trivially succeeding `jwt.ParseWithClaims` oracle for renewal info. -/
def pwcIdR : ParseWithClaimsFn JWSRenewalInfoDecodedPayload := fun _ _ => (id, none)

/-- A base64 oracle that returns its input unchanged, convenient for probing
`ParseJWSEncodeString` on concrete strings. -/
def decodeEnvEcho : DecodeEnv where
  b64DecodePayload := fun s => .ok s

/-- A `DoEnv` modelling a 404 response whose body matches the structured
error envelope. -/
def doEnv404 : DoEnv where
  newRequest := none
  clientDo := .ok { statusCode := 404, headers := [], body := .ok [1, 2] }
  newAppStoreAPIError := fun _ _ => some ⟨4040010, "Transaction id not found."⟩

/-- First page of the concrete pagination scenario: more pages follow under
revision `r1`. -/
def historyPage1 : HistoryResponse := { hasMore := true, revision := "r1", page := 1 }

/-- Second page of the concrete pagination scenario: the last page. -/
def historyPage2 : HistoryResponse := { hasMore := false, revision := "", page := 2 }

/-- The error component of `parseJWS` does not depend on the claims object it
is handed: every stage before `jwt.ParseWithClaims` ignores it, and the
`ParseWithClaims` oracle's error depends only on the token and the key. -/
theorem parseJWS_snd_const {C : Type} (env : CertEnv) (pwc : ParseWithClaimsFn C)
    (jws : String) (a b : C) :
    (parseJWS env pwc jws a).2 = (parseJWS env pwc jws b).2 := by
  rcases h2 : env.extractCertByIndex jws 2 with e | rb
  · simp [parseJWS, h2]
  rcases hrc : env.parseCertificate rb with u | rc
  · simp [parseJWS, h2, hrc]
  rcases h1 : env.extractCertByIndex jws 1 with e | ib
  · simp [parseJWS, h2, hrc, h1]
  rcases hic : env.parseCertificate ib with u | ic
  · simp [parseJWS, h2, hrc, h1, hic]
  rcases h0 : env.extractCertByIndex jws 0 with e | lb
  · simp [parseJWS, h2, hrc, h1, hic, h0]
  rcases hlc : env.parseCertificate lb with u | lc
  · simp [parseJWS, h2, hrc, h1, hic, h0, hlc]
  rcases hv : env.verifyCert rc ic lc with _ | e
  · rcases hpk : lc.publicKey with pk | tag
    · simp [parseJWS, h2, hrc, h1, hic, h0, hlc, hv, hpk]
    · simp [parseJWS, h2, hrc, h1, hic, h0, hlc, hv, hpk]
  · simp [parseJWS, h2, hrc, h1, hic, h0, hlc, hv]

/-- C1: any failure at any stage of the decode pipeline (certificate
extraction, certificate parsing, chain verification, key-type check, or
signature verification) makes the decoding operation return an error, so no
target shape is presented as a valid result: `ParseSignedTransaction` returns
a nil transaction with the error, `ParseNotificationV2` returns a non-nil
error whenever `parseJWS` fails, and conversely a nil `parseJWS` error is
only possible when every stage succeeded. -/
theorem decode_pipeline_aborts_on_failure :
    (∀ (env : CertEnv) (pwc : ParseWithClaimsFn JWSTransaction) (jws : String) (e : GoErr),
        (parseJWS env pwc jws ({} : JWSTransaction)).2 = some e →
        ParseSignedTransaction env pwc jws = (none, some e))
    ∧ (∀ (env : CertEnv) (pwc : ParseWithClaimsFn NotificationPayload) (jws : String)
        (e : GoErr) (cl : NotificationPayload),
        (parseJWS env pwc jws cl).2 = some e →
        (ParseNotificationV2 env pwc jws).2 = some e)
    ∧ (∀ {C : Type} (env : CertEnv) (pwc : ParseWithClaimsFn C) (jws : String) (cl : C),
        (parseJWS env pwc jws cl).2 = none →
        ∃ rb rc ib ic lb lc pk,
          env.extractCertByIndex jws 2 = .ok rb ∧ env.parseCertificate rb = .ok rc ∧
          env.extractCertByIndex jws 1 = .ok ib ∧ env.parseCertificate ib = .ok ic ∧
          env.extractCertByIndex jws 0 = .ok lb ∧ env.parseCertificate lb = .ok lc ∧
          env.verifyCert rc ic lc = none ∧ lc.publicKey = .ecdsaKey pk ∧
          (pwc jws pk).2 = none) := by
  refine ⟨?_, ?_, ?_⟩
  · intro env pwc jws e h
    rcases hp : parseJWS env pwc jws ({} : JWSTransaction) with ⟨t, err⟩
    rw [hp] at h
    simp only at h
    subst h
    simp [ParseSignedTransaction, hp]
  · intro env pwc jws e cl h
    unfold ParseNotificationV2
    rw [parseJWS_snd_const env pwc jws _ cl]
    exact h
  · intro C env pwc jws cl h
    rcases h2 : env.extractCertByIndex jws 2 with e | rb
    · simp [parseJWS, h2] at h
    rcases hrc : env.parseCertificate rb with u | rc
    · simp [parseJWS, h2, hrc] at h
    rcases h1 : env.extractCertByIndex jws 1 with e | ib
    · simp [parseJWS, h2, hrc, h1] at h
    rcases hic : env.parseCertificate ib with u | ic
    · simp [parseJWS, h2, hrc, h1, hic] at h
    rcases h0 : env.extractCertByIndex jws 0 with e | lb
    · simp [parseJWS, h2, hrc, h1, hic, h0] at h
    rcases hlc : env.parseCertificate lb with u | lc
    · simp [parseJWS, h2, hrc, h1, hic, h0, hlc] at h
    rcases hv : env.verifyCert rc ic lc with _ | e
    · rcases hpk : lc.publicKey with pk | tag
      · simp only [parseJWS, h2, hrc, h1, hic, h0, hlc, hv, hpk] at h
        exact ⟨rb, rc, ib, ic, lb, lc, pk, rfl, hrc, rfl, hic, rfl, hlc, hv, hpk, h⟩
      · simp [parseJWS, h2, hrc, h1, hic, h0, hlc, hv, hpk] at h
    · simp [parseJWS, h2, hrc, h1, hic, h0, hlc, hv] at h

/-- Witness for C1: a concrete failing pipeline aborts both top-level
decoders, and a concrete fully-succeeding pipeline satisfies the stage
characterization. -/
theorem decode_pipeline_aborts_on_failure_witness :
    ((parseJWS certEnvExtractFail pwcIdT "x" ({} : JWSTransaction)).2 = some "bad jws"
      ∧ ParseSignedTransaction certEnvExtractFail pwcIdT "x" = (none, some "bad jws"))
    ∧ ((parseJWS certEnvExtractFail pwcIdN "x" ({} : NotificationPayload)).2 = some "bad jws"
      ∧ (ParseNotificationV2 certEnvExtractFail pwcIdN "x").2 = some "bad jws")
    ∧ ((parseJWS certEnvOk pwcIdT "x" ({} : JWSTransaction)).2 = none
      ∧ ∃ rb rc ib ic lb lc pk,
          certEnvOk.extractCertByIndex "x" 2 = .ok rb ∧ certEnvOk.parseCertificate rb = .ok rc ∧
          certEnvOk.extractCertByIndex "x" 1 = .ok ib ∧ certEnvOk.parseCertificate ib = .ok ic ∧
          certEnvOk.extractCertByIndex "x" 0 = .ok lb ∧ certEnvOk.parseCertificate lb = .ok lc ∧
          certEnvOk.verifyCert rc ic lc = none ∧ lc.publicKey = .ecdsaKey pk ∧
          (pwcIdT "x" pk).2 = none) :=
  ⟨⟨rfl, decode_pipeline_aborts_on_failure.1 certEnvExtractFail pwcIdT "x" "bad jws" rfl⟩,
    ⟨rfl, decode_pipeline_aborts_on_failure.2.1 certEnvExtractFail pwcIdN "x" "bad jws" {} rfl⟩,
    ⟨rfl, decode_pipeline_aborts_on_failure.2.2 certEnvOk pwcIdT "x" {} rfl⟩⟩

/-- C2: when the certificate entries extract successfully, an X.509 parse
failure is reported with a position-specific error — root (index 2),
intermediate (index 1) or leaf (index 0) — and the three error messages are
pairwise distinct, so callers can tell which link in the chain is broken. -/
theorem parseJWS_position_specific_cert_errors :
    ∀ {C : Type} (env : CertEnv) (pwc : ParseWithClaimsFn C) (jws : String)
      (cl : C) (rb ib lb : Bytes),
      env.extractCertByIndex jws 2 = .ok rb →
      env.extractCertByIndex jws 1 = .ok ib →
      env.extractCertByIndex jws 0 = .ok lb →
      ((env.parseCertificate rb = .error () →
          parseJWS env pwc jws cl = (cl, some rootCertParseErr))
        ∧ (∀ rc, env.parseCertificate rb = .ok rc →
            env.parseCertificate ib = .error () →
            parseJWS env pwc jws cl = (cl, some intermediateCertParseErr))
        ∧ (∀ rc ic, env.parseCertificate rb = .ok rc →
            env.parseCertificate ib = .ok ic →
            env.parseCertificate lb = .error () →
            parseJWS env pwc jws cl = (cl, some leafCertParseErr)))
      ∧ (rootCertParseErr ≠ intermediateCertParseErr
        ∧ rootCertParseErr ≠ leafCertParseErr
        ∧ intermediateCertParseErr ≠ leafCertParseErr) := by
  intro C env pwc jws cl rb ib lb h2 h1 h0
  refine ⟨⟨?_, ?_, ?_⟩, by decide, by decide, by decide⟩
  · intro hroot
    simp [parseJWS, h2, hroot]
  · intro rc hrc hinter
    simp [parseJWS, h2, h1, hrc, hinter]
  · intro rc ic hrc hic hleaf
    simp [parseJWS, h2, h1, h0, hrc, hic, hleaf]

/-- Witness for C2: in a concrete environment whose root certificate blob
fails parsing, `parseJWS` reports exactly the root-specific error. -/
theorem parseJWS_position_specific_cert_errors_witness :
    (certEnvRootBad.extractCertByIndex "x" 2 = .ok [2]
      ∧ certEnvRootBad.parseCertificate [2] = .error ())
    ∧ parseJWS certEnvRootBad pwcIdT "x" ({} : JWSTransaction)
        = ({}, some rootCertParseErr)
    ∧ (rootCertParseErr ≠ intermediateCertParseErr
      ∧ rootCertParseErr ≠ leafCertParseErr
      ∧ intermediateCertParseErr ≠ leafCertParseErr) :=
  ⟨⟨rfl, rfl⟩,
    (parseJWS_position_specific_cert_errors certEnvRootBad pwcIdT "x" {}
      [2] [1] [0] rfl rfl rfl).1.1 rfl,
    (parseJWS_position_specific_cert_errors certEnvRootBad pwcIdT "x"
      ({} : JWSTransaction) [2] [1] [0] rfl rfl rfl).2⟩

/-- C3: once the chain extracts, parses and verifies, a non-ecdsa leaf public
key makes `parseJWS` fail with the unsupported-key-type error for every
possible signature-verification oracle (so signature verification is never
reached), and an ecdsa leaf key is exactly the key handed to
`jwt.ParseWithClaims`. -/
theorem parseJWS_key_type_gate :
    ∀ {C : Type} (env : CertEnv) (jws : String) (cl : C)
      (rb ib lb : Bytes) (rc ic lc : GoCertificate),
      env.extractCertByIndex jws 2 = .ok rb → env.parseCertificate rb = .ok rc →
      env.extractCertByIndex jws 1 = .ok ib → env.parseCertificate ib = .ok ic →
      env.extractCertByIndex jws 0 = .ok lb → env.parseCertificate lb = .ok lc →
      env.verifyCert rc ic lc = none →
      ((∀ tag, lc.publicKey = .otherKey tag →
          ∀ pwc : ParseWithClaimsFn C,
            parseJWS env pwc jws cl = (cl, some unsupportedKeyTypeErr))
        ∧ (∀ pk, lc.publicKey = .ecdsaKey pk →
          ∀ pwc : ParseWithClaimsFn C,
            parseJWS env pwc jws cl = ((pwc jws pk).1 cl, (pwc jws pk).2))) := by
  intro C env jws cl rb ib lb rc ic lc h2 hrc h1 hic h0 hlc hv
  constructor
  · intro tag hpk pwc
    simp [parseJWS, h2, hrc, h1, hic, h0, hlc, hv, hpk]
  · intro pk hpk pwc
    simp [parseJWS, h2, hrc, h1, hic, h0, hlc, hv, hpk]

/-- Witness for C3: a concrete chain whose leaf key is an RSA key fails with
the unsupported-key-type error, and a concrete ecdsa chain hands the leaf key
to the claims parser. -/
theorem parseJWS_key_type_gate_witness :
    parseJWS certEnvRSAKey pwcIdT "x" ({} : JWSTransaction)
      = ({}, some unsupportedKeyTypeErr)
    ∧ parseJWS certEnvOk pwcIdT "x" ({} : JWSTransaction)
      = ((pwcIdT "x" 7).1 {}, (pwcIdT "x" 7).2) :=
  ⟨(parseJWS_key_type_gate certEnvRSAKey "x" {} [2] [1] [0]
      ⟨.ecdsaKey 7⟩ ⟨.ecdsaKey 7⟩ ⟨.otherKey "rsa"⟩
      rfl rfl rfl rfl rfl rfl rfl).1 "rsa" rfl pwcIdT,
    (parseJWS_key_type_gate certEnvOk "x" {} [2] [1] [0]
      ⟨.ecdsaKey 7⟩ ⟨.ecdsaKey 7⟩ ⟨.ecdsaKey 7⟩
      rfl rfl rfl rfl rfl rfl rfl).2 7 rfl pwcIdT⟩

/-- The element kept by the `ParseSignedTransactions` loop body, when any:
exactly the `err == nil && trans != nil` check of the source. -/
def keptTransaction (r : Option JWSTransaction × Option GoErr) : Option JWSTransaction :=
  match r with
  | (some t, none) => some t
  | _ => none

/-- Unrolling the `ParseSignedTransactions` accumulator: the loop computes
the successfully parsed transactions appended to the initial accumulator. -/
theorem parseSignedTransactions_foldl (env : CertEnv)
    (pwc : ParseWithClaimsFn JWSTransaction) :
    ∀ (ts : List String) (acc : List JWSTransaction),
      ts.foldl (fun acc v =>
          match ParseSignedTransaction env pwc v with
          | (some t, none) => acc ++ [t]
          | _ => acc) acc
        = acc ++ ts.filterMap (fun v => keptTransaction (ParseSignedTransaction env pwc v)) := by
  intro ts
  induction ts with
  | nil => intro acc; simp
  | cons v rest ih =>
    intro acc
    rcases hv : ParseSignedTransaction env pwc v with ⟨o, e⟩
    rcases o with _ | t <;> rcases e with _ | err <;>
      simp [List.foldl_cons, List.filterMap_cons, hv, keptTransaction, ih]

/-- C4 counterexample: with a concrete environment in which every parse
fails, the single input element fails parsing (with error `bad jws`), yet
`ParseSignedTransactions` returns an empty result and a nil error — the
failure is silently swallowed and the element dropped, contradicting the
claim that such an error is surfaced. -/
theorem parseSignedTransactions_swallows_error_cex :
    ParseSignedTransaction certEnvExtractFail pwcIdT "x" = (none, some "bad jws")
    ∧ ParseSignedTransactions certEnvExtractFail pwcIdT ["x"] = ([], none) :=
  ⟨rfl, rfl⟩

/-- C4 amended: `ParseSignedTransactions` always returns a nil error; an
element that fails parsing or verification is silently dropped, and the
result keeps, in input order, exactly the elements whose parse succeeded. -/
theorem parseSignedTransactions_drops_failures :
    ∀ (env : CertEnv) (pwc : ParseWithClaimsFn JWSTransaction) (ts : List String),
      (ParseSignedTransactions env pwc ts).2 = none
      ∧ (ParseSignedTransactions env pwc ts).1
        = ts.filterMap (fun v => keptTransaction (ParseSignedTransaction env pwc v)) := by
  intro env pwc ts
  refine ⟨rfl, ?_⟩
  show ts.foldl _ [] = _
  rw [parseSignedTransactions_foldl env pwc ts []]
  simp

/-- C5: when the middle JWS segment exists and base64-decodes, the unverified
probe of the decoded bytes chooses the decode target: no discriminator at all
yields a nil result and a nil error; the `transactionId` discriminator routes
to the transaction shape decoded by the full verified `parseJWS`; otherwise
the `renewalDate` discriminator routes to the renewal-info shape, likewise
decoded by the full verified `parseJWS`. -/
theorem parseJWSEncodeString_shape_probe :
    ∀ (cenv : CertEnv) (denv : DecodeEnv) (pwcT : ParseWithClaimsFn JWSTransaction)
      (pwcR : ParseWithClaimsFn JWSRenewalInfoDecodedPayload)
      (jws : String) (p1 : List Char) (payload : String),
      (goSplit '.' jws.data)[1]? = some p1 →
      denv.b64DecodePayload (String.mk p1) = .ok payload →
      ((goContains payload.data "transactionId".data = false →
          goContains payload.data "renewalDate".data = false →
          ParseJWSEncodeString cenv denv pwcT pwcR jws = .returns (none, none))
        ∧ (goContains payload.data "transactionId".data = true →
          ParseJWSEncodeString cenv denv pwcT pwcR jws
            = .returns (some (.transaction (parseJWS cenv pwcT jws ({} : JWSTransaction)).1),
                (parseJWS cenv pwcT jws ({} : JWSTransaction)).2))
        ∧ (goContains payload.data "transactionId".data = false →
          goContains payload.data "renewalDate".data = true →
          ParseJWSEncodeString cenv denv pwcT pwcR jws
            = .returns
                (some (.renewalInfo
                  (parseJWS cenv pwcR jws ({} : JWSRenewalInfoDecodedPayload)).1),
                (parseJWS cenv pwcR jws ({} : JWSRenewalInfoDecodedPayload)).2))) := by
  intro cenv denv pwcT pwcR jws p1 payload hp1 hb64
  refine ⟨?_, ?_, ?_⟩
  · intro ht hr
    simp [ParseJWSEncodeString, hp1, hb64, ht, hr]
  · intro ht
    simp [ParseJWSEncodeString, hp1, hb64, ht]
  · intro ht hr
    simp [ParseJWSEncodeString, hp1, hb64, ht, hr]

/-- Witness for C5: with an echoing base64 oracle, a payload segment
containing no discriminator yields `(nil, nil)`, and a payload segment
containing `transactionId` decodes into the transaction shape through the
concrete succeeding pipeline. -/
theorem parseJWSEncodeString_shape_probe_witness :
    ((goSplit '.' "h.payload.sig".data)[1]? = some "payload".data
      ∧ decodeEnvEcho.b64DecodePayload (String.mk "payload".data) = .ok "payload"
      ∧ ParseJWSEncodeString certEnvOk decodeEnvEcho pwcIdT pwcIdR "h.payload.sig"
        = .returns (none, none))
    ∧ ((goSplit '.' "h.transactionId.sig".data)[1]? = some "transactionId".data
      ∧ ParseJWSEncodeString certEnvOk decodeEnvEcho pwcIdT pwcIdR "h.transactionId.sig"
        = .returns
            (some (.transaction (parseJWS certEnvOk pwcIdT "h.transactionId.sig"
              ({} : JWSTransaction)).1),
            (parseJWS certEnvOk pwcIdT "h.transactionId.sig" ({} : JWSTransaction)).2)) :=
  ⟨⟨rfl, rfl,
    (parseJWSEncodeString_shape_probe certEnvOk decodeEnvEcho pwcIdT pwcIdR
      "h.payload.sig" "payload".data "payload" rfl rfl).1 rfl rfl⟩,
    ⟨rfl,
    (parseJWSEncodeString_shape_probe certEnvOk decodeEnvEcho pwcIdT pwcIdR
      "h.transactionId.sig" "transactionId".data "transactionId" rfl rfl).2.1 rfl⟩⟩

/-- C6: the retry predicate installed by `httpClient` answers true exactly
when the observed status is 401 or the observed error is (or wraps)
`io.ErrUnexpectedEOF` or `io.EOF`; every other status/error combination is
terminal. -/
theorem httpClientShouldRetry_iff :
    ∀ (i : Nat) (err : List GoIOError),
      httpClientShouldRetry i err = true ↔
        (i = 401 ∨ GoIOError.unexpectedEOFErr ∈ err ∨ GoIOError.eofErr ∈ err) := by
  intro i err
  unfold httpClientShouldRetry errorsIs
  by_cases h401 : i = 401 <;>
    by_cases hu : GoIOError.unexpectedEOFErr ∈ err <;>
    by_cases he : GoIOError.eofErr ∈ err <;>
      simp [h401, hu, he, List.contains_eq_any_beq, List.any_eq_true, BEq.beq]

/-- C7: a non-2xx response whose body matches the structured error envelope
makes `Do` return the typed `APIError` (carrying the server-reported code and
message) together with the status code and the raw body, rather than a
generic status error. -/
theorem do_returns_typed_apierror :
    ∀ (env : DoEnv) (resp : HTTPResponse) (byteData : Bytes) (apiE : APIError),
      env.newRequest = none →
      env.clientDo = .ok resp →
      resp.body = .ok byteData →
      (resp.statusCode < 200 ∨ 300 ≤ resp.statusCode) →
      env.newAppStoreAPIError byteData resp.headers = some apiE →
      Do env = (resp.statusCode, some byteData, some (.apiErr apiE)) := by
  intro env resp byteData apiE hreq hdo hbody hstatus hapi
  have hne : resp.statusCode ≠ 200 := by omega
  simp [Do, hreq, hdo, hbody, hne, hapi]

/-- Witness for C7: a concrete 404 response with an envelope body yields the
typed `APIError` alongside the status and raw body. -/
theorem do_returns_typed_apierror_witness :
    (300 ≤ 404 ∧ doEnv404.newAppStoreAPIError [1, 2] []
        = some ⟨4040010, "Transaction id not found."⟩)
    ∧ Do doEnv404 = (404, some [1, 2], some (.apiErr ⟨4040010, "Transaction id not found."⟩)) :=
  ⟨⟨by decide, rfl⟩,
    do_returns_typed_apierror doEnv404
      { statusCode := 404, headers := [], body := .ok [1, 2] }
      [1, 2] ⟨4040010, "Transaction id not found."⟩
      rfl rfl rfl (Or.inr (by decide)) rfl⟩

/-- C8: in the concrete scenario — first page `hasMore=true, revision="r1"`,
second page `hasMore=false` — `GetTransactionHistory` sends exactly two
requests (the second carrying `revision=r1`), returns exactly the two pages
in order, and never touches any further server response; in general a
`hasMore=false` page terminates the loop immediately, and a `hasMore=true`
page with a non-empty revision feeds that revision into the next request. -/
theorem getTransactionHistory_pagination :
    (∀ rest : List (Except GoErr HistoryResponse),
      GetTransactionHistory none (.ok historyPage1 :: .ok historyPage2 :: rest)
        = ([none, some "r1"], .ok [historyPage1, historyPage2]))
    ∧ (∀ (q : Option String) (rev : String) (pg : Nat)
        (rest : List (Except GoErr HistoryResponse)),
      GetTransactionHistory q (.ok ⟨false, rev, pg⟩ :: rest) = ([q], .ok [⟨false, rev, pg⟩]))
    ∧ (∀ (q : Option String) (rev : String) (pg : Nat)
        (rest : List (Except GoErr HistoryResponse)),
      rev ≠ "" →
      GetTransactionHistory q (.ok ⟨true, rev, pg⟩ :: rest)
        = (q :: (GetTransactionHistory (some rev) rest).1,
            consPage ⟨true, rev, pg⟩ (GetTransactionHistory (some rev) rest).2)) := by
  refine ⟨?_, ?_, ?_⟩
  · intro rest
    simp [GetTransactionHistory, historyPage1, historyPage2, consPage]
  · intro q rev pg rest
    simp [GetTransactionHistory]
  · intro q rev pg rest hrev
    simp [GetTransactionHistory, hrev]

/-- Witness for C8: the revision-feeding conjunct applied at the concrete
two-page scenario. -/
theorem getTransactionHistory_pagination_witness :
    ("r1" : String) ≠ ""
    ∧ GetTransactionHistory none (.ok ⟨true, "r1", 1⟩ :: [.ok historyPage2])
      = (none :: (GetTransactionHistory (some "r1") [.ok historyPage2]).1,
          consPage ⟨true, "r1", 1⟩ (GetTransactionHistory (some "r1") [.ok historyPage2]).2) :=
  ⟨by decide,
    getTransactionHistory_pagination.2.2 none "r1" 1 [.ok historyPage2] (by decide)⟩

/-- C10: in each of the three pagination loops, a page with `hasMore=true`
but an empty continuation token (empty `revision`, or empty
`paginationToken`) terminates the loop after collecting that page, returning
the pages gathered so far with a nil error, regardless of any further server
responses. -/
theorem pagination_stops_on_empty_token :
    (∀ (q : Option String) (pg : Nat) (rest : List (Except GoErr HistoryResponse)),
      GetTransactionHistory q (.ok ⟨true, "", pg⟩ :: rest) = ([q], .ok [⟨true, "", pg⟩]))
    ∧ (∀ (q : Option String) (pg : Nat) (rest : List (Except GoErr RefundLookupResponse)),
      GetRefundHistory q (.ok ⟨true, "", pg⟩ :: rest) = ([q], .ok [⟨true, "", pg⟩]))
    ∧ (∀ (tok : Option String) (items : List Nat)
        (rest : List (Except GoErr NotificationHistoryResponses)),
      GetNotificationHistory tok (.ok ⟨true, "", items⟩ :: rest) = ([tok], .ok items)) := by
  refine ⟨?_, ?_, ?_⟩
  · intro q pg rest
    simp [GetTransactionHistory]
  · intro q pg rest
    simp [GetRefundHistory]
  · intro tok items rest
    simp [GetNotificationHistory]

/-- Go `strings.Split` always yields one more field than there are
separator occurrences. -/
theorem goSplit_length (sep : Char) :
    ∀ l : List Char, (goSplit sep l).length = l.count sep + 1 := by
  intro l
  induction l with
  | nil => simp [goSplit]
  | cons c rest ih =>
    by_cases hc : c = sep
    · simp [goSplit, hc, List.count_cons, ih]
    · cases hg : goSplit sep rest with
      | nil => rw [hg] at ih; simp at ih
      | cons h t =>
        rw [hg] at ih
        simp only [List.length_cons] at ih
        simp [goSplit, hc, hg, List.count_cons]
        omega

/-- C9: `ParseJWSEncodeString` splits its input on `.` and unconditionally
indexes segment 1: every input containing at least one `.` keeps the access
in bounds and the call returns normally, while any input without a `.`
makes the index-1 access out of range — a Go runtime panic — so the
operation is not total over arbitrary strings. -/
theorem parseJWSEncodeString_index_totality :
    ∀ (cenv : CertEnv) (denv : DecodeEnv) (pwcT : ParseWithClaimsFn JWSTransaction)
      (pwcR : ParseWithClaimsFn JWSRenewalInfoDecodedPayload) (jws : String),
      ('.' ∈ jws.data →
        ∃ r, ParseJWSEncodeString cenv denv pwcT pwcR jws = .returns r)
      ∧ ('.' ∉ jws.data →
        ParseJWSEncodeString cenv denv pwcT pwcR jws
          = .panics "runtime error: index out of range") := by
  intro cenv denv pwcT pwcR jws
  constructor
  · intro hmem
    have hlen : 1 < (goSplit '.' jws.data).length := by
      rw [goSplit_length]
      have := List.count_pos_iff.2 hmem
      omega
    rcases hp : (goSplit '.' jws.data)[1]? with _ | p1
    · rw [List.getElem?_eq_none_iff] at hp
      omega
    · rcases hb : denv.b64DecodePayload (String.mk p1) with e | payload
      · exact ⟨(none, some e), by simp [ParseJWSEncodeString, hp, hb]⟩
      · cases ht : goContains payload.data "transactionId".data
        · cases hr : goContains payload.data "renewalDate".data
          · exact ⟨(none, none), by simp [ParseJWSEncodeString, hp, hb, ht, hr]⟩
          · exact ⟨(some (.renewalInfo (parseJWS cenv pwcR jws {}).1),
              (parseJWS cenv pwcR jws {}).2),
              by simp [ParseJWSEncodeString, hp, hb, ht, hr]⟩
        · exact ⟨(some (.transaction (parseJWS cenv pwcT jws {}).1),
            (parseJWS cenv pwcT jws {}).2),
            by simp [ParseJWSEncodeString, hp, hb, ht]⟩
  · intro hmem
    have hcount : jws.data.count '.' = 0 := by
      by_contra hne
      exact hmem (List.count_pos_iff.1 (Nat.pos_of_ne_zero hne))
    have hp : (goSplit '.' jws.data)[1]? = none := by
      rw [List.getElem?_eq_none_iff, goSplit_length, hcount]
    simp [ParseJWSEncodeString, hp]

/-- Witness for C9: `a.b` (one dot) returns normally, `ab` (no dot) panics
with the out-of-range index. -/
theorem parseJWSEncodeString_index_totality_witness :
    ('.' ∈ ("a.b" : String).data
      ∧ ∃ r, ParseJWSEncodeString certEnvOk decodeEnvEcho pwcIdT pwcIdR "a.b" = .returns r)
    ∧ ('.' ∉ ("ab" : String).data
      ∧ ParseJWSEncodeString certEnvOk decodeEnvEcho pwcIdT pwcIdR "ab"
        = .panics "runtime error: index out of range") :=
  ⟨⟨by decide, (parseJWSEncodeString_index_totality certEnvOk decodeEnvEcho
      pwcIdT pwcIdR "a.b").1 (by decide)⟩,
    ⟨by decide, (parseJWSEncodeString_index_totality certEnvOk decodeEnvEcho
      pwcIdT pwcIdR "ab").2 (by decide)⟩⟩

end AppStore
